import Mathlib

/-!
Verification development for a YOLOv3-style object detector
(`easydet/model/module/layer.py` and `train.py`).

The development is a shallow embedding of the program:

* `create_modules` and its loop are translated to a pure fold over the
  layer-specification list, with Python runtime errors (unbound local
  variables, list `IndexError`s) made explicit through `Except`.
* the detection head (`YOLOLayer.forward`) is translated to pure functions
  over feature maps represented as index functions into `ℝ`; tensor
  `view`/`permute` operations become row-major index arithmetic.
* the model executor (`Darknet.forward`) is translated to a fold whose
  numeric kernels (convolution, pooling, feature fusion, concatenation)
  are parameters: those kernels live in an external tensor library and
  the properties below concern only the executor's control flow and its
  output-history buffer.
* the training loop of `train.py` is translated to a fold over epochs and
  batches, with the per-batch loss-finiteness test and the per-epoch
  evaluation supplied as parameters.

Grid geometry (`create_grids`) lives in `easydet/model/common`, which is
not part of the sources here; it is modelled from the specification where
noted.  `ONNX_EXPORT` is taken to be false throughout: the export paths
are out of scope for every property below.
-/

namespace YoloSpec

/-! ### Real-valued primitives -/

/-- Logistic sigmoid, the function computed by `torch.sigmoid`. -/
noncomputable def sigmoid (t : ℝ) : ℝ := 1 / (1 + Real.exp (-t))

/-! ### Python list-indexing primitives

Python list reads and writes wrap negative indices once from the end and
raise `IndexError` otherwise.  These helpers make that behaviour explicit. -/

/-- Normalise a Python index against a list of length `n`:
negative indices count from the end. -/
def pyIndex (n : Nat) (i : Int) : Int := if i < 0 then i + n else i

/-- Python read `l[i]` on a list of naturals. -/
def pyGetNat (l : List Nat) (i : Int) : Except String Nat :=
  let j := pyIndex l.length i
  if h : 0 ≤ j ∧ j.toNat < l.length then .ok (l.get ⟨j.toNat, h.2⟩)
  else .error "IndexError: list index out of range"

/-- Python write `l[i] = True` on a boolean list. -/
def setRouted (l : List Bool) (i : Int) : Except String (List Bool) :=
  let j := pyIndex l.length i
  if 0 ≤ j ∧ j.toNat < l.length then .ok (l.set j.toNat true)
  else .error "IndexError: list assignment index out of range"

/-- The loop `for i in routs: routs_binary[i] = True`
(`create_modules`, lines 185 and 186). -/
def markRouts (routs : List Int) (l : List Bool) : Except String (List Bool) :=
  match routs with
  | [] => .ok l
  | r :: rs => do markRouts rs (← setRouted l r)

/-! ### Layer specifications and built modules -/

/-- One record of the parsed architecture description (a Python dict in the
source).  Fields not used by a given `type` keep their defaults; fields the
source reads conditionally (`"x" in module`) are `Option`s. -/
structure LayerSpec where
  type : String := ""
  /-- input channel count, present on the leading hyperparameter record -/
  channels : Nat := 0
  batch_normalize : Bool := false
  filters : Nat := 0
  size : Nat := 0
  stride : Nat := 0
  pad : Bool := false
  groups : Nat := 1
  activation : String := ""
  in_features : Option Nat := none
  out_features : Nat := 0
  /-- `route` back-references -/
  layers : List Int := []
  /-- the `from` key of `shortcut` and (optionally) `yolo` records -/
  fromField : Option (List Int) := none
  /-- whether the record carries a `weights_type` key -/
  weights_type : Bool := false
  /-- `yolo` anchor indices into the anchor table -/
  mask : List Nat := []
  /-- `yolo` anchor table, (width, height) pairs in input pixels -/
  anchors : List (ℚ × ℚ) := []
  classes : Nat := 0
deriving DecidableEq

/-- The module that `create_modules` registers for one specification.
Numeric submodules (`nn.Conv2d`, pooling, …) are external library objects;
what is retained here is exactly the structural information the builder
chooses: which kind of unit, with which construction arguments.
Convolution stride/group arguments are omitted: no property below
mentions them. -/
inductive BuiltModule where
  /-- the empty `nn.Sequential()` placeholder (route and unrecognized types) -/
  | seqEmpty
  | conv (inCh outCh kernel padding : Nat) (bn : Bool) (activation : String)
  | maxpool (size stride : Nat) (zeroPad : Bool)
  | avgpool (size stride : Nat)
  | seModule (inCh : Nat)
  | shuffle (groups : Nat)
  | dense (inF outF : Nat) (bn : Bool)
  | upsample (scale : Nat)
  /-- `WeightFeatureFusion` for shortcut records -/
  | fusion (layers : List Int) (weighted : Bool)
  | yolo (anchors : List (ℚ × ℚ)) (nc : Nat) (index : Int) (layers : List Int)
deriving DecidableEq

/-- Result of one dispatch branch of the builder loop (lines 47 to 178):
the module to register, the new value of the loop-local `filters` variable
(`none` when the branch leaves it untouched), and the updated `routs` and
`yolo_index`. -/
structure StepOut where
  module : BuiltModule
  filters : Option Nat
  routs : List Int
  yoloIndex : Int
deriving DecidableEq

/-- Builder loop state.  `filters` is `none` while the Python local variable
of the same name is still unassigned. -/
structure BuildState where
  outputFilters : List Nat
  moduleList : List BuiltModule
  routs : List Int
  yoloIndex : Int
  filters : Option Nat
deriving DecidableEq

/-- The type names `create_modules` dispatches on. -/
def recognizedTypes : List String :=
  ["convolutional", "maxpool", "avgpool", "semodule", "shuffle", "dense",
   "upsample", "route", "shortcut", "yolo"]

/-- The dispatch on `module["type"]` in the builder loop (lines 47 to 178).

The `yolo` branch's smart bias initialization (lines 159 to 175) rewrites
the bias tensor of an already registered convolution; since `BuiltModule`
does not carry bias values, that rewrite has no structural effect here and
its arithmetic is embedded separately as `smartBiasInit`.  Its enclosing
bare `except` means it can never raise, so it cannot affect the fold. -/
def stepBranch (i : Nat) (m : LayerSpec) (s : BuildState) : Except String StepOut :=
  if m.type = "convolutional" then
    .ok { module := .conv (m.in_features.getD (s.outputFilters.getLastD 0)) m.filters
                      m.size (if m.pad then (m.size - 1) / 2 else 0)
                      m.batch_normalize m.activation
          filters := some m.filters
          routs := if m.batch_normalize then s.routs else s.routs ++ [(i : Int)]
          yoloIndex := s.yoloIndex }
  else if m.type = "maxpool" then
    .ok { module := .maxpool m.size m.stride (m.size = 2 ∧ m.stride = 1)
          filters := none, routs := s.routs, yoloIndex := s.yoloIndex }
  else if m.type = "avgpool" then
    .ok { module := .avgpool m.size m.stride
          filters := none, routs := s.routs, yoloIndex := s.yoloIndex }
  else if m.type = "semodule" then
    match m.in_features with
    | none => .error "KeyError: in_features"
    | some c =>
      .ok { module := .seModule c
            filters := none, routs := s.routs, yoloIndex := s.yoloIndex }
  else if m.type = "shuffle" then
    .ok { module := .shuffle m.groups
          filters := none, routs := s.routs, yoloIndex := s.yoloIndex }
  else if m.type = "dense" then
    match m.in_features with
    | none => .error "KeyError: in_features"
    | some c =>
      .ok { module := .dense c m.out_features m.batch_normalize
            filters := none, routs := s.routs, yoloIndex := s.yoloIndex }
  else if m.type = "upsample" then
    .ok { module := .upsample m.stride
          filters := none, routs := s.routs, yoloIndex := s.yoloIndex }
  else if m.type = "route" then do
    let vals ← m.layers.mapM fun l =>
      pyGetNat s.outputFilters (if l > 0 then l + 1 else l)
    .ok { module := .seqEmpty
          filters := some vals.sum
          routs := s.routs ++ m.layers.map (fun l => if l < 0 then (i : Int) + l else l)
          yoloIndex := s.yoloIndex }
  else if m.type = "shortcut" then
    match m.fromField with
    | none => .error "KeyError: from"
    | some ls =>
      .ok { module := .fusion ls m.weights_type
            filters := some (s.outputFilters.getLastD 0)
            routs := s.routs ++ ls.map (fun l => if l < 0 then (i : Int) + l else l)
            yoloIndex := s.yoloIndex }
  else if m.type = "yolo" then do
    let sel ← m.mask.mapM fun j =>
      match m.anchors.get? j with
      | some a => Except.ok a
      | none => Except.error "IndexError: anchor index out of range"
    .ok { module := .yolo sel m.classes (s.yoloIndex + 1) ((m.fromField).getD [])
          filters := none, routs := s.routs, yoloIndex := s.yoloIndex + 1 }
  else
    -- unrecognized layer type: a printed warning, the empty Sequential stays
    .ok { module := .seqEmpty
          filters := none, routs := s.routs, yoloIndex := s.yoloIndex }

/-- One full iteration of the builder loop: dispatch, then
`module_list.append(modules)` and `output_filters.append(filters)`
(lines 181 and 182).  Reading the Python local `filters` before any branch
has assigned it raises `UnboundLocalError`. -/
def createStep (i : Nat) (m : LayerSpec) (s : BuildState) : Except String BuildState := do
  let br ← stepBranch i m s
  match br.filters <|> s.filters with
  | none => .error "UnboundLocalError: local variable filters referenced before assignment"
  | some f =>
    .ok { outputFilters := s.outputFilters ++ [f]
          moduleList := s.moduleList ++ [br.module]
          routs := br.routs
          yoloIndex := br.yoloIndex
          filters := br.filters <|> s.filters }

/-- The builder loop `for i, module in enumerate(module_defines)`. -/
def buildLoop : Nat → List LayerSpec → BuildState → Except String BuildState
  | _, [], s => .ok s
  | i, m :: rest, s => do buildLoop (i + 1) rest (← createStep i m s)

/-- What `create_modules` produces.  The source returns the pair
`(module_list, routs_binary)` and leaves its argument holding only the
per-layer records; `specs` records that final argument state and
`outputFilters` exposes the channel-count sequence for the statements
below. -/
structure BuildResult where
  moduleList : List BuiltModule
  routsBinary : List Bool
  specs : List LayerSpec
  outputFilters : List Nat
deriving DecidableEq

/-- `create_modules` (lines 35 to 187).  `module_defines.pop(0)` removes the
hyperparameter record (raising on an empty list); the loop builds the
modules; `routs_binary` is sized by the final loop index, which is
unbound (`NameError`) when no layer record exists. -/
def create_modules (module_defines : List LayerSpec) (image_size : Nat × Nat) :
    Except String BuildResult :=
  match module_defines with
  | [] => .error "IndexError: pop from empty list"
  | hyper :: rest => do
    let s ← buildLoop 0 rest
      { outputFilters := [hyper.channels], moduleList := [], routs := [],
        yoloIndex := -1, filters := none }
    if rest.isEmpty then
      .error "NameError: name i is not defined"
    else do
      let rb ← markRouts s.routs (List.replicate rest.length false)
      .ok { moduleList := s.moduleList, routsBinary := rb,
            specs := rest, outputFilters := s.outputFilters }

/-! ### Smart bias initialization (`create_modules`, lines 159 to 175)

The yolo branch rewrites the preceding convolution's flat bias vector
through a `(na, no)` view: row `a`, column `c` of the view aliases flat
position `a * no + c`.  The objectness column (index 4) is shifted so that
its mean moves to `-4.5`; the class columns (indices 5 and up) are shifted
so that their mean moves to `log(1 / (nc - 0.99))`.  The two shifts happen
in sequence, exactly as in the source. -/

/-- Line 169: `bias[:, 4] += bo - bias[:, 4].mean()` with `bo = -4.5`,
on the flat vector. -/
noncomputable def biasObjPass (na no : Nat) (bias : Nat → ℝ) : Nat → ℝ :=
  let objMean : ℝ := (∑ a ∈ Finset.range na, bias (a * no + 4)) / na
  fun p => if p < na * no ∧ p % no = 4 then bias p + (-4.5 - objMean) else bias p

/-- Line 171: `bias[:, 5:] += bc - bias[:, 5:].mean()`, on the flat vector,
after the objectness pass has already been written through the view. -/
noncomputable def biasClsPass (na no : Nat) (bc : ℝ) (bias : Nat → ℝ) : Nat → ℝ :=
  let clsMean : ℝ :=
    (∑ a ∈ Finset.range na, ∑ c ∈ Finset.Ico 5 no, bias (a * no + c)) /
      (na * (no - 5))
  fun p => if p < na * no ∧ 5 ≤ p % no then bias p + (bc - clsMean) else bias p

/-- Lines 161 to 173, on the flat bias vector (exact real arithmetic):
the objectness shift, then the class shift with
`bc = log(1 / (nc - 0.99))`. -/
noncomputable def smartBiasInit (na no nc : Nat) (bias : Nat → ℝ) : Nat → ℝ :=
  biasClsPass na no (Real.log (1 / ((nc : ℝ) - 0.99))) (biasObjPass na no bias)

/-! ### Detection-head grid geometry

`create_grids` lives in `easydet/model/common`, which is not among the
sources; it is modelled from the specification here. -/

/-- Cached grid geometry of one detection head: grid extent, per-cell pixel
stride, per-cell grid-origin offsets and grid-cell-scaled anchor sizes. -/
structure GridState where
  nx : Nat
  ny : Nat
  stride : ℝ
  gridXY : Nat → Nat → ℝ × ℝ
  anchorWH : Nat → ℝ × ℝ

/-- Modelled from the spec: the per-cell pixel stride, the ratio of the
network input extent to the grid extent ("per-cell pixel stride to convert
to image pixel units"). -/
noncomputable def gridStride (image_size ng : Nat × Nat) : ℝ :=
  (max image_size.1 image_size.2 : Nat) / (max ng.1 ng.2 : Nat)

/-- Modelled from the spec: `create_grids` (in `easydet/model/common`, not
among the sources).  It caches the grid extent, the per-cell pixel stride,
the per-cell grid-origin offset `(x, y)` of every cell, and the per-anchor
width/height scaled to grid-cell units (anchors are given in input pixels,
so the grid-cell-scaled value is the anchor divided by the stride). -/
noncomputable def create_grids (anchors : List (ℝ × ℝ)) (image_size ng : Nat × Nat) :
    GridState :=
  { nx := ng.1
    ny := ng.2
    stride := gridStride image_size ng
    gridXY := fun y x => ((x : ℝ), (y : ℝ))
    anchorWH := fun a => ((anchors.getD a (0, 0)).1 / gridStride image_size ng,
                          (anchors.getD a (0, 0)).2 / gridStride image_size ng) }

/-- The grid-geometry cache check of `YOLOLayer.forward` (lines 312 to 318):
rebuild the geometry exactly when the incoming feature map's grid extent
differs from the cached one. -/
noncomputable def yolo_grid_update (anchors : List (ℝ × ℝ)) (st : GridState)
    (image_size ng : Nat × Nat) : GridState :=
  if (st.nx, st.ny) ≠ ng then create_grids anchors image_size ng else st

/-! ### Detection-head tensor reshaping and decoding

A raw feature map of shape `(bs, na * no, ny, nx)` is an index function
`b c y x ↦ value`; `view` is row-major flattening followed by row-major
unflattening, `permute` swaps index positions, exactly as in PyTorch. -/

/-- Row-major read of a 4-axis tensor of shape `(·, C, ny, nx)` at a flat
position. -/
def flatten4 (C ny nx : Nat) (p : Nat → Nat → Nat → Nat → ℝ) : Nat → ℝ :=
  fun k => p (k / (C * ny * nx)) (k / (ny * nx) % C) (k / nx % ny) (k % nx)

/-- Row-major 5-axis view of shape `(·, na, no, ny, nx)` over flat data. -/
def view5 (na no ny nx : Nat) (f : Nat → ℝ) : Nat → Nat → Nat → Nat → Nat → ℝ :=
  fun b a o y x => f ((((b * na + a) * no + o) * ny + y) * nx + x)

/-- `permute(0, 1, 3, 4, 2)`: output axis order `(b, a, y, x, o)`. -/
def permute01342 (t : Nat → Nat → Nat → Nat → Nat → ℝ) :
    Nat → Nat → Nat → Nat → Nat → ℝ :=
  fun b a y x o => t b a o y x

/-- Line 321:
`pred.view(bs, na, no, ny, nx).permute(0, 1, 3, 4, 2)`. -/
def yolo_reshape (na no ny nx : Nat) (pred : Nat → Nat → Nat → Nat → ℝ) :
    Nat → Nat → Nat → Nat → Nat → ℝ :=
  permute01342 (view5 na no ny nx (flatten4 (na * no) ny nx pred))

/-- Training-mode return value of `YOLOLayer.forward` (lines 324 and 325):
the reshaped tensor, untouched. -/
def yolo_forward_train (na no ny nx : Nat) (pred : Nat → Nat → Nat → Nat → ℝ) :
    Nat → Nat → Nat → Nat → Nat → ℝ :=
  yolo_reshape na no ny nx pred

/-- Inference-mode return value of `YOLOLayer.forward` (lines 343 to 351):
the cloned tensor receives, in place and in sequence, sigmoid-plus-grid on
channels 0 and 1, exp-times-anchor on channels 2 and 3, the stride factor
on channels 0 to 3, and sigmoid on channels 4 and up; it is then viewed as
`(bs, na * ny * nx, no)`.  Both the decoded view and the reshaped raw
tensor are returned, as in the source. -/
noncomputable def yolo_forward_inference (na no ny nx : Nat) (g : GridState)
    (pred : Nat → Nat → Nat → Nat → ℝ) :
    (Nat → Nat → Nat → ℝ) × (Nat → Nat → Nat → Nat → Nat → ℝ) :=
  let p := yolo_reshape na no ny nx pred
  let io1 := fun b a y x (o : Nat) =>
    if o < 2 then
      sigmoid (p b a y x o) + (if o = 0 then (g.gridXY y x).1 else (g.gridXY y x).2)
    else p b a y x o
  let io2 := fun b a y x (o : Nat) =>
    if 2 ≤ o ∧ o < 4 then
      Real.exp (io1 b a y x o) * (if o = 2 then (g.anchorWH a).1 else (g.anchorWH a).2)
    else io1 b a y x o
  let io3 := fun b a y x (o : Nat) =>
    if o < 4 then io2 b a y x o * g.stride else io2 b a y x o
  let io4 := fun b a y x (o : Nat) =>
    if 4 ≤ o then sigmoid (io3 b a y x o) else io3 b a y x o
  (fun b d o => io4 b (d / (ny * nx)) (d / nx % ny) (d % nx) o, p)

/-! ### Model-graph execution (`Darknet.forward`, lines 208 to 231)

Tensors are an abstract type `V`; the numeric kernels the executor calls
(convolution and pooling application, weighted feature fusion, channel
concatenation, the reorg downsampling fallback, and the detection head's
numeric output) are parameters bundled in `ForwardOps`: they belong to the
external tensor library or are embedded separately above.  What is
translated here is the executor's own control flow, in particular its
handling of the output-history buffer. -/

/-- One entry of the output-history buffer: a retained tensor, or the empty
placeholder (`[]` in the source). -/
inductive Hist (V : Type) where
  | val (t : V)
  | empty
deriving DecidableEq

/-- Executor state during one forward call: the current tensor, the output
history, and the collected detection-head outputs. -/
structure FwdState (V : Type) where
  x : V
  out : List (Hist V)
  yoloOut : List V
deriving DecidableEq

/-- The external numeric operations `Darknet.forward` invokes.
`catChannels` returns `none` when concatenation raises (spatial mismatch),
triggering the reorg fallback.  The detection head receives the original
input spatial size in the source; that size is fixed during one forward
call and is absorbed into `yoloApply`. -/
structure ForwardOps (V : Type) where
  applyModule : BuiltModule → V → V
  fusionApply : List Int → Bool → V → List (Hist V) → V
  catChannels : List V → Option V
  interpolateHalf : V → V
  yoloApply : BuiltModule → V → List (Hist V) → V

/-- Python read `out[i]` of a history entry.  Reading the empty placeholder
is reported as an error here; the source would instead propagate the empty
list and fail at its first tensor use. -/
def histGetE {V : Type} (l : List (Hist V)) (i : Int) : Except String V :=
  let j := pyIndex l.length i
  if h : 0 ≤ j ∧ j.toNat < l.length then
    match l.get ⟨j.toNat, h.2⟩ with
    | .val v => .ok v
    | .empty => .error "TypeError: empty placeholder used as tensor"
  else .error "IndexError: list index out of range"

/-- Python write `out[i] = v` on the history buffer. -/
def pySetHist {V : Type} (l : List (Hist V)) (i : Int) (v : Hist V) :
    Except String (List (Hist V)) :=
  let j := pyIndex l.length i
  if 0 ≤ j ∧ j.toNat < l.length then .ok (l.set j.toNat v)
  else .error "IndexError: list assignment index out of range"

/-- The multi-reference route concatenation of lines 223 to 228: gather
the referenced history entries and concatenate; on any failure (the bare
`except`), downsample the entry at `layers[1]` in place and try once more,
this second failure being fatal. -/
def routeMulti {V : Type} (ops : ForwardOps V) (ls : List Int)
    (out : List (Hist V)) : Except String (V × List (Hist V)) :=
  let attempt : Except String V := do
    let vs ← ls.mapM fun l => histGetE out l
    match ops.catChannels vs with
    | some v => .ok v
    | none => .error "RuntimeError: concatenation size mismatch"
  match attempt with
  | .ok v => .ok (v, out)
  | .error _ => do
    -- bare except: downsample out[layers[1]] and concatenate again
    let l1 ← match ls.get? 1 with
             | some l => Except.ok l
             | none => Except.error "IndexError: list index out of range"
    let v1 ← histGetE out l1
    let out2 ← pySetHist out l1 (Hist.val (ops.interpolateHalf v1))
    let vs ← ls.mapM fun l => histGetE out2 l
    match ops.catChannels vs with
    | some v => .ok (v, out2)
    | none => .error "RuntimeError: concatenation size mismatch"

/-- The per-layer dispatch of `Darknet.forward` (lines 214 to 230), before
the history append: produces the new current tensor, the (possibly
reorg-rewritten) history, and the detection outputs. -/
def stepCore {V : Type} (ops : ForwardOps V) (md : LayerSpec) (module : BuiltModule)
    (st : FwdState V) : Except String (V × List (Hist V) × List V) :=
  if md.type = "convolutional" ∨ md.type = "upsample" ∨ md.type = "maxpool" then
    .ok (ops.applyModule module st.x, st.out, st.yoloOut)
  else if md.type = "shortcut" then
    match module with
    | .fusion ls w => .ok (ops.fusionApply ls w st.x st.out, st.out, st.yoloOut)
    | _ => .error "TypeError: shortcut layer without fusion module"
  else if md.type = "route" then
    match md.layers with
    | [l] => do
      let v ← histGetE st.out l
      .ok (v, st.out, st.yoloOut)
    | ls => (routeMulti ops ls st.out).map fun p => (p.1, p.2, st.yoloOut)
  else if md.type = "yolo" then
    .ok (st.x, st.out, st.yoloOut ++ [ops.yoloApply module st.x st.out])
  else
    -- no dispatch branch matches: the current tensor passes through
    .ok (st.x, st.out, st.yoloOut)

/-- One full iteration of the executor loop: dispatch, then
`out.append(x if self.routs[i] else [])` (line 231). -/
def darknetStep {V : Type} (ops : ForwardOps V) (routs : List Bool) (i : Nat)
    (md : LayerSpec) (module : BuiltModule) (st : FwdState V) :
    Except String (FwdState V) := do
  let r ← stepCore ops md module st
  .ok { x := r.1
        out := r.2.1 ++ [if routs.getD i false then Hist.val r.1 else Hist.empty]
        yoloOut := r.2.2 }

/-- The loop `for i, (module_define, module) in enumerate(zip(...))`. -/
def darknetLoop {V : Type} (ops : ForwardOps V) (routs : List Bool) :
    Nat → List (LayerSpec × BuiltModule) → FwdState V → Except String (FwdState V)
  | _, [], st => .ok st
  | i, p :: rest, st => do
    darknetLoop ops routs (i + 1) rest (← darknetStep ops routs i p.1 p.2 st)

/-- `Darknet.forward` up to its mode-dependent return packaging: the
history buffer starts as the fresh empty list `out = []` of line 210 on
every call. -/
def darknet_forward {V : Type} (ops : ForwardOps V) (routs : List Bool)
    (pairs : List (LayerSpec × BuiltModule)) (x : V) : Except String (FwdState V) :=
  darknetLoop ops routs 0 pairs { x := x, out := [], yoloOut := [] }

/-! ### Training loop (`train.py`, `train`, lines 232 to 418)

Only the control flow the claims mention is embedded: the per-epoch batch
loop with its loss-finiteness test (lines 310 to 314), the per-epoch
evaluation (lines 348 to 361), the best-fitness update (lines 378 to 381),
and the function's return value.  The loss values, evaluation results and
fitness combination are produced by external collaborators and enter as
parameters. -/

/-- External inputs of one training run.  `lossFinite e b` is
`torch.isfinite(loss)` for batch `b` of epoch `e`; `evalResults e` is the
`evaluate(...)` outcome at the end of epoch `e`; `fitnessOf` is
`utils.fitness`; `initResults` is the zero tuple of line 237. -/
structure TrainEnv (R : Type) where
  epochs : Nat
  batches : Nat
  startEpoch : Nat
  notest : Bool
  lossFinite : Nat → Nat → Bool
  evalResults : Nat → R
  fitnessOf : R → ℚ
  initResults : R

/-- Mutable state of the training loop: the `results` tuple, the best
fitness seen, and the number of batches that completed a backward pass
(a step of corrupted gradients the abort is meant to prevent). -/
structure TrainState (R : Type) where
  results : R
  bestFitness : ℚ
  steps : Nat
deriving DecidableEq

/-- Index of the first batch of epoch `e` whose total loss is non-finite,
if any: the batch at which lines 312 to 314 return. -/
def firstBadBatch {R : Type} (env : TrainEnv R) (e : Nat) : Option Nat :=
  (List.range env.batches).find? fun b => !env.lossFinite e b

/-- The epoch loop of `train` (lines 242 to 409), by remaining-epoch fuel.
A non-finite loss returns the current `results` immediately: the remaining
batches of the epoch, the evaluation, and every later epoch are skipped,
and only the batches before the bad one contributed backward passes.
Otherwise the epoch runs its batches, evaluates unless `notest` holds on a
non-final epoch, and raises the best fitness. -/
def trainGo {R : Type} (env : TrainEnv R) : Nat → Nat → TrainState R → TrainState R
  | 0, _, st => st
  | fuel + 1, e, st =>
    match firstBadBatch env e with
    | some b => { st with steps := st.steps + b }
    | none =>
      let results := if env.notest = false ∨ e + 1 = env.epochs
        then env.evalResults e else st.results
      let fit := env.fitnessOf results
      trainGo env fuel (e + 1)
        { results := results
          bestFitness := if st.bestFitness < fit then fit else st.bestFitness
          steps := st.steps + env.batches }

/-- `train()`: run the epochs from `startEpoch`; the returned state's
`results` component is the function's return value. -/
def train {R : Type} (env : TrainEnv R) (best0 : ℚ) : TrainState R :=
  trainGo env (env.epochs - env.startEpoch) env.startEpoch
    { results := env.initResults, bestFitness := best0, steps := 0 }

/-! ### The route-reference normalization of the specification

For a route record at layer index `i`, a negative reference `l` names the
layer `i + l` and a nonnegative reference names the layer `l` itself;
layer `j`'s output channel count sits at position `j + 1` of
`output_filters` because position 0 holds the input-channel sentinel. -/

/-- The layer index a route reference resolves to. -/
def routeRef (i : Nat) (l : Int) : Nat :=
  if l < 0 then ((i : Int) + l).toNat else l.toNat

/-- Claim C4 as stated, at one architecture description: every route
record's declared channel count is the sum of the output channel counts of
the layers its references resolve to. -/
def RouteFiltersClaimAt (defs : List LayerSpec) (img : Nat × Nat) : Prop :=
  ∀ hyper rest r i m, defs = hyper :: rest →
    create_modules defs img = .ok r →
    rest.get? i = some m → m.type = "route" →
    r.outputFilters.get? (i + 1) =
      some ((m.layers.map fun l => r.outputFilters.getD (routeRef i l + 1) 0).sum)

/-! ### Concrete example inputs for the closed statements below -/

/-- Hyperparameter record: 3 input channels. -/
def exHyper : LayerSpec := { type := "net", channels := 3 }

/-- A batch-normalized convolution producing 8 channels. -/
def exConv : LayerSpec :=
  { type := "convolutional", batch_normalize := true, filters := 8, size := 3,
    pad := true, activation := "leaky" }

/-- A route with the single back-reference -1. -/
def exRoute : LayerSpec := { type := "route", layers := [-1] }

/-- A route with the single absolute reference 0 (to the first layer). -/
def exRouteZero : LayerSpec := { type := "route", layers := [0] }

/-- A detection-head record: 2 of 3 anchors selected, one class. -/
def exYolo : LayerSpec :=
  { type := "yolo", mask := [0, 1],
    anchors := [(10, 13), (16, 30), (33, 23)], classes := 1 }

/-- A record whose type is outside the recognized set. -/
def exMystery : LayerSpec := { type := "mystery" }

/-- A small three-layer architecture description. -/
def exDefs : List LayerSpec := [exHyper, exConv, exRoute, exYolo]

/-- What `create_modules` builds from `exDefs`. -/
def exResult : BuildResult :=
  { moduleList := [.conv 3 8 3 1 true "leaky", .seqEmpty,
                   .yolo [(10, 13), (16, 30)] 1 0 []]
    routsBinary := [true, false, false]
    specs := [exConv, exRoute, exYolo]
    outputFilters := [3, 8, 8, 8] }

/-- The description whose route refers to layer 0 absolutely. -/
def exC4defs : List LayerSpec := [exHyper, exConv, exRouteZero]

/-- The description whose first layer record is unrecognized. -/
def exC8defs : List LayerSpec := [exHyper, exMystery]

/-- The convolution module built from `exConv`. -/
def exConvModule : BuiltModule := .conv 3 8 3 1 true "leaky"

/-- Concrete numeric kernels over `Nat` tensors, for the executor
examples: module application increments, fusion and detection heads keep
the current tensor, concatenation takes the first input. -/
def natOps : ForwardOps Nat :=
  { applyModule := fun _ v => v + 1
    fusionApply := fun _ _ v _ => v
    catChannels := fun l => l.head?
    interpolateHalf := fun v => v
    yoloApply := fun _ v _ => v }

/-- A three-epoch, one-batch-per-epoch training run whose loss turns
non-finite in epoch 2, after an epoch-0 evaluation of fitness 10 and an
epoch-1 evaluation of fitness 1. -/
def envC9 : TrainEnv ℚ :=
  { epochs := 3, batches := 1, startEpoch := 0, notest := false
    lossFinite := fun e _ => decide (e < 2)
    evalResults := fun e => if e = 0 then 10 else 1
    fitnessOf := fun r => r
    initResults := 0 }

/-! ## Helper lemmas -/

theorem split_mod (q r d : Nat) (h : r < d) : (q * d + r) % d = r := by
  rw [Nat.mul_comm q d, Nat.mul_add_mod]; exact Nat.mod_eq_of_lt h

theorem split_div (q r d : Nat) (h : r < d) : (q * d + r) / d = q := by
  rw [Nat.mul_comm q d, Nat.mul_add_div (by omega)]
  rw [Nat.div_eq_of_lt h]
  omega

theorem block_lt (c r B C : Nat) (hc : c < C) (hr : r < B) : c * B + r < C * B := by
  calc c * B + r < c * B + B := by omega
    _ = (c + 1) * B := by ring
    _ ≤ C * B := Nat.mul_le_mul_right B hc

/-- The reshape of line 321 relocates every element: position
`(b, a, y, x, o)` of the reshaped tensor reads raw channel `a * no + o`
at cell `(y, x)` of batch `b`. -/
theorem yolo_reshape_eq (na no ny nx : Nat) (pred : Nat → Nat → Nat → Nat → ℝ)
    (b a y x o : Nat) (ha : a < na) (ho : o < no) (hy : y < ny) (hx : x < nx) :
    yolo_reshape na no ny nx pred b a y x o = pred b (a * no + o) y x := by
  have hC : a * no + o < na * no := block_lt a o no na ha ho
  have hyx : y * nx + x < ny * nx := block_lt y x nx ny hy hx
  have e1 : ((((b * na + a) * no + o) * ny + y) * nx + x) % nx = x :=
    split_mod _ x nx hx
  have e2 : ((((b * na + a) * no + o) * ny + y) * nx + x) / nx % ny = y := by
    rw [split_div _ x nx hx]; exact split_mod _ y ny hy
  have e3 : ((((b * na + a) * no + o) * ny + y) * nx + x) / (ny * nx) % (na * no)
      = a * no + o := by
    have hk : (((b * na + a) * no + o) * ny + y) * nx + x
        = ((b * na + a) * no + o) * (ny * nx) + (y * nx + x) := by ring
    rw [hk, split_div _ _ _ hyx]
    have hq : (b * na + a) * no + o = b * (na * no) + (a * no + o) := by ring
    rw [hq]; exact split_mod _ _ _ hC
  have e4 : ((((b * na + a) * no + o) * ny + y) * nx + x) / (na * no * ny * nx) = b := by
    have hR : (a * no + o) * (ny * nx) + (y * nx + x) < na * no * ny * nx := by
      have := block_lt (a * no + o) (y * nx + x) (ny * nx) (na * no) hC hyx
      calc (a * no + o) * (ny * nx) + (y * nx + x) < na * no * (ny * nx) := this
        _ = na * no * ny * nx := by ring
    have hk : (((b * na + a) * no + o) * ny + y) * nx + x
        = b * (na * no * ny * nx) + ((a * no + o) * (ny * nx) + (y * nx + x)) := by
      ring
    rw [hk]; exact split_div _ _ _ hR
  simp only [yolo_reshape, permute01342, view5, flatten4]
  rw [e1, e2, e3, e4]

/-! ## Claim theorems for the detection head -/

/-- C2: in training mode the detection head returns the
`(batch, anchors, grid_y, grid_x, outputs_per_anchor)` reshape of its raw
input, a pure rearrangement: every output element equals the input element
at the reshape-and-permute index image, no value transformed. -/
theorem yolo_train_pure_rearrangement (na no ny nx : Nat)
    (pred : Nat → Nat → Nat → Nat → ℝ) (b a y x o : Nat)
    (ha : a < na) (hy : y < ny) (hx : x < nx) (ho : o < no) :
    yolo_forward_train na no ny nx pred b a y x o = pred b (a * no + o) y x :=
  yolo_reshape_eq na no ny nx pred b a y x o ha ho hy hx

/-- Witness for C2 at a concrete resolution and element. -/
theorem yolo_train_pure_rearrangement_witness :
    yolo_forward_train 3 85 13 13 (fun b c y x => (b : ℝ) + c + y + x) 2 1 5 7 80
      = ((2 : Nat) : ℝ) + ((1 * 85 + 80 : Nat) : ℝ) + ((5 : Nat) : ℝ) + ((7 : Nat) : ℝ) := by
  exact yolo_train_pure_rearrangement 3 85 13 13 (fun b c y x => (b : ℝ) + c + y + x)
    2 1 5 7 80 (by decide) (by decide) (by decide) (by decide)

theorem sigmoid_zero : sigmoid 0 = 1 / 2 := by
  simp [sigmoid, Real.exp_zero]
  norm_num

/-- Per-element closed form of the inference decode, for an arbitrary grid
state: the in-place update sequence of lines 344 to 349 amounts to
sigmoid-plus-offset-times-stride on channels 0 and 1,
exp-times-anchor-times-stride on channels 2 and 3, and plain sigmoid from
channel 4 on. -/
theorem yolo_decode_formulas (na no ny nx : Nat) (g : GridState)
    (pred : Nat → Nat → Nat → Nat → ℝ) (b a y x : Nat)
    (hy : y < ny) (hx : x < nx) :
    ((yolo_forward_inference na no ny nx g pred).1 b ((a * ny + y) * nx + x) 0
        = (sigmoid (yolo_reshape na no ny nx pred b a y x 0) + (g.gridXY y x).1)
            * g.stride) ∧
    ((yolo_forward_inference na no ny nx g pred).1 b ((a * ny + y) * nx + x) 1
        = (sigmoid (yolo_reshape na no ny nx pred b a y x 1) + (g.gridXY y x).2)
            * g.stride) ∧
    ((yolo_forward_inference na no ny nx g pred).1 b ((a * ny + y) * nx + x) 2
        = Real.exp (yolo_reshape na no ny nx pred b a y x 2) * (g.anchorWH a).1
            * g.stride) ∧
    ((yolo_forward_inference na no ny nx g pred).1 b ((a * ny + y) * nx + x) 3
        = Real.exp (yolo_reshape na no ny nx pred b a y x 3) * (g.anchorWH a).2
            * g.stride) ∧
    (∀ o, 4 ≤ o →
      (yolo_forward_inference na no ny nx g pred).1 b ((a * ny + y) * nx + x) o
        = sigmoid (yolo_reshape na no ny nx pred b a y x o)) := by
  have hyx : y * nx + x < ny * nx := block_lt y x nx ny hy hx
  have ea : ((a * ny + y) * nx + x) / (ny * nx) = a := by
    have hk : (a * ny + y) * nx + x = a * (ny * nx) + (y * nx + x) := by ring
    rw [hk]; exact split_div _ _ _ hyx
  have ey : ((a * ny + y) * nx + x) / nx % ny = y := by
    rw [split_div _ x nx hx]; exact split_mod _ y ny hy
  have ex : ((a * ny + y) * nx + x) % nx = x := split_mod _ x nx hx
  refine ⟨?_, ?_, ?_, ?_, ?_⟩
  · simp only [yolo_forward_inference]
    rw [ea, ey, ex]
    norm_num
  · simp only [yolo_forward_inference]
    rw [ea, ey, ex]
    norm_num
  · simp only [yolo_forward_inference]
    rw [ea, ey, ex]
    norm_num
  · simp only [yolo_forward_inference]
    rw [ea, ey, ex]
    norm_num
  · intro o ho
    have h4 : ¬ o < 4 := by omega
    have h2 : ¬ o < 2 := by omega
    have h24 : ¬ (2 ≤ o ∧ o < 4) := by omega
    simp only [yolo_forward_inference]
    rw [ea, ey, ex]
    simp [ho, h4, h2, h24]

/-- C1: in inference (non-training, non-export) mode, the decoded tensor is
obtained from the reshaped raw feature map by sigmoid on channels 0 and 1
plus the cell's grid-origin offset, exponential on channels 2 and 3 times
the per-anchor width/height, the per-cell pixel stride on channels 0 to 3,
and sigmoid on channels 4 and up; in particular, a zero (x, y) logit pair
decodes to the centre of the cell, inside
`[cell-origin, cell-origin + stride)`. -/
theorem yolo_inference_decode (na no ny nx : Nat) (anchors : List (ℝ × ℝ))
    (img : Nat × Nat) (pred : Nat → Nat → Nat → Nat → ℝ) (b a y x : Nat)
    (hy : y < ny) (hx : x < nx)
    (hs : 0 < (create_grids anchors img (nx, ny)).stride) :
    ((yolo_forward_inference na no ny nx (create_grids anchors img (nx, ny)) pred).1
        b ((a * ny + y) * nx + x) 0
      = (sigmoid (yolo_reshape na no ny nx pred b a y x 0) + (x : ℝ))
          * (create_grids anchors img (nx, ny)).stride) ∧
    ((yolo_forward_inference na no ny nx (create_grids anchors img (nx, ny)) pred).1
        b ((a * ny + y) * nx + x) 1
      = (sigmoid (yolo_reshape na no ny nx pred b a y x 1) + (y : ℝ))
          * (create_grids anchors img (nx, ny)).stride) ∧
    ((yolo_forward_inference na no ny nx (create_grids anchors img (nx, ny)) pred).1
        b ((a * ny + y) * nx + x) 2
      = Real.exp (yolo_reshape na no ny nx pred b a y x 2)
          * ((create_grids anchors img (nx, ny)).anchorWH a).1
          * (create_grids anchors img (nx, ny)).stride) ∧
    ((yolo_forward_inference na no ny nx (create_grids anchors img (nx, ny)) pred).1
        b ((a * ny + y) * nx + x) 3
      = Real.exp (yolo_reshape na no ny nx pred b a y x 3)
          * ((create_grids anchors img (nx, ny)).anchorWH a).2
          * (create_grids anchors img (nx, ny)).stride) ∧
    (∀ o, 4 ≤ o →
      (yolo_forward_inference na no ny nx (create_grids anchors img (nx, ny)) pred).1
          b ((a * ny + y) * nx + x) o
        = sigmoid (yolo_reshape na no ny nx pred b a y x o)) ∧
    (yolo_reshape na no ny nx pred b a y x 0 = 0 →
      (x : ℝ) * (create_grids anchors img (nx, ny)).stride
          ≤ (yolo_forward_inference na no ny nx (create_grids anchors img (nx, ny)) pred).1
              b ((a * ny + y) * nx + x) 0 ∧
        (yolo_forward_inference na no ny nx (create_grids anchors img (nx, ny)) pred).1
            b ((a * ny + y) * nx + x) 0
          < ((x : ℝ) + 1) * (create_grids anchors img (nx, ny)).stride) ∧
    (yolo_reshape na no ny nx pred b a y x 1 = 0 →
      (y : ℝ) * (create_grids anchors img (nx, ny)).stride
          ≤ (yolo_forward_inference na no ny nx (create_grids anchors img (nx, ny)) pred).1
              b ((a * ny + y) * nx + x) 1 ∧
        (yolo_forward_inference na no ny nx (create_grids anchors img (nx, ny)) pred).1
            b ((a * ny + y) * nx + x) 1
          < ((y : ℝ) + 1) * (create_grids anchors img (nx, ny)).stride) := by
  obtain ⟨f0, f1, f2, f3, f45⟩ :=
    yolo_decode_formulas na no ny nx (create_grids anchors img (nx, ny)) pred b a y x hy hx
  refine ⟨f0, f1, f2, f3, f45, ?_, ?_⟩
  · intro h0
    have e : (yolo_forward_inference na no ny nx (create_grids anchors img (nx, ny)) pred).1
        b ((a * ny + y) * nx + x) 0
        = (1 / 2 + (x : ℝ)) * (create_grids anchors img (nx, ny)).stride := by
      have := f0
      rw [h0, sigmoid_zero] at this
      exact this
    constructor
    · rw [e]; nlinarith [hs]
    · rw [e]; nlinarith [hs]
  · intro h1
    have e : (yolo_forward_inference na no ny nx (create_grids anchors img (nx, ny)) pred).1
        b ((a * ny + y) * nx + x) 1
        = (1 / 2 + (y : ℝ)) * (create_grids anchors img (nx, ny)).stride := by
      have := f1
      rw [h1, sigmoid_zero] at this
      exact this
    constructor
    · rw [e]; nlinarith [hs]
    · rw [e]; nlinarith [hs]

/-- Witness for C1: one anchor, a 6-output head on a 13-by-13 grid over a
416-pixel input, the all-zero raw map, cell (5, 7): the decoded centre
lands inside cell 7's pixel span. -/
theorem yolo_inference_decode_witness :
    ((7 : Nat) : ℝ) * (create_grids [((10 : ℝ), 13)] (416, 416) (13, 13)).stride
        ≤ (yolo_forward_inference 1 6 13 13
            (create_grids [((10 : ℝ), 13)] (416, 416) (13, 13)) (fun _ _ _ _ => 0)).1
            0 ((0 * 13 + 5) * 13 + 7) 0 ∧
      (yolo_forward_inference 1 6 13 13
          (create_grids [((10 : ℝ), 13)] (416, 416) (13, 13)) (fun _ _ _ _ => 0)).1
          0 ((0 * 13 + 5) * 13 + 7) 0
        < (((7 : Nat) : ℝ) + 1) * (create_grids [((10 : ℝ), 13)] (416, 416) (13, 13)).stride := by
  have h := yolo_inference_decode 1 6 13 13 [((10 : ℝ), 13)] (416, 416)
    (fun _ _ _ _ => 0) 0 0 5 7 (by decide) (by decide)
    (by norm_num [create_grids, gridStride])
  exact h.2.2.2.2.2.1 rfl

/-! ## Smart bias initialization (C5) -/

/-- On a zero bias vector the objectness pass writes exactly `-4.5` at
every objectness slot. -/
theorem biasObjPass_obj (na no : Nat) (bias : Nat → ℝ) (hb : ∀ p, bias p = 0)
    (a : Nat) (ha : a < na) (h4 : 4 < no) :
    biasObjPass na no bias (a * no + 4) = -4.5 := by
  have hlt : a * no + 4 < na * no := block_lt a 4 no na ha h4
  have hmod : (a * no + 4) % no = 4 := split_mod a 4 no h4
  simp only [biasObjPass]
  simp [hb, hlt, hmod]

/-- The objectness pass leaves every non-objectness slot untouched. -/
theorem biasObjPass_cls (na no : Nat) (bias : Nat → ℝ) (a c : Nat)
    (hcno : c < no) (hc : c ≠ 4) :
    biasObjPass na no bias (a * no + c) = bias (a * no + c) := by
  have hmod : (a * no + c) % no = c := split_mod a c no hcno
  simp only [biasObjPass]
  simp [hmod, hc]

/-- C5: with the target convolution's bias preset to zero, the constructed
bias has objectness mean exactly `-4.5` across anchors and class mean
exactly `log(1 / (nc - 0.99))`, in exact arithmetic. -/
theorem smart_bias_init_means (na nc : Nat) (hna : 0 < na) (hnc : 0 < nc)
    (bias : Nat → ℝ) (hb : ∀ p, bias p = 0) :
    ((∑ a ∈ Finset.range na,
        smartBiasInit na (nc + 5) nc bias (a * (nc + 5) + 4)) / (na : ℝ) = -4.5) ∧
    ((∑ a ∈ Finset.range na, ∑ c ∈ Finset.Ico 5 (nc + 5),
        smartBiasInit na (nc + 5) nc bias (a * (nc + 5) + c))
      / ((na : ℝ) * (nc : ℝ)) = Real.log (1 / ((nc : ℝ) - 0.99))) := by
  have hnaR : (na : ℝ) ≠ 0 := Nat.cast_ne_zero.mpr (by omega)
  have hncR : (nc : ℝ) ≠ 0 := Nat.cast_ne_zero.mpr (by omega)
  have hobj : ∀ a ∈ Finset.range na,
      smartBiasInit na (nc + 5) nc bias (a * (nc + 5) + 4) = -4.5 := by
    intro a ha'
    rw [Finset.mem_range] at ha'
    have hmod : (a * (nc + 5) + 4) % (nc + 5) = 4 := split_mod a 4 (nc + 5) (by omega)
    have h1 : biasObjPass na (nc + 5) bias (a * (nc + 5) + 4) = -4.5 :=
      biasObjPass_obj na (nc + 5) bias hb a ha' (by omega)
    simp only [smartBiasInit, biasClsPass]
    simp [hmod, h1]
  have hnum : ∀ a' ∈ Finset.range na, (∑ c' ∈ Finset.Ico 5 (nc + 5),
      biasObjPass na (nc + 5) bias (a' * (nc + 5) + c')) = 0 := by
    intro a' _
    refine Finset.sum_eq_zero ?_
    intro c' hc'
    rw [Finset.mem_Ico] at hc'
    rw [biasObjPass_cls na (nc + 5) bias a' c' hc'.2 (by omega)]
    exact hb _
  have hclsSum : (∑ a' ∈ Finset.range na, ∑ c' ∈ Finset.Ico 5 (nc + 5),
      biasObjPass na (nc + 5) bias (a' * (nc + 5) + c')) = 0 :=
    Finset.sum_eq_zero hnum
  have hcls : ∀ a ∈ Finset.range na, ∀ c ∈ Finset.Ico 5 (nc + 5),
      smartBiasInit na (nc + 5) nc bias (a * (nc + 5) + c)
        = Real.log (1 / ((nc : ℝ) - 0.99)) := by
    intro a ha' c hc'
    rw [Finset.mem_range] at ha'
    rw [Finset.mem_Ico] at hc'
    have hmod : (a * (nc + 5) + c) % (nc + 5) = c := split_mod a c (nc + 5) hc'.2
    have hlt : a * (nc + 5) + c < na * (nc + 5) := block_lt a c (nc + 5) na ha' hc'.2
    have h1 : biasObjPass na (nc + 5) bias (a * (nc + 5) + c)
        = bias (a * (nc + 5) + c) :=
      biasObjPass_cls na (nc + 5) bias a c hc'.2 (by omega)
    simp only [smartBiasInit, biasClsPass]
    simp [hmod, hlt, hc'.1, hclsSum, h1, hb]
  constructor
  · rw [Finset.sum_congr rfl hobj, Finset.sum_const, Finset.card_range,
      nsmul_eq_mul]
    field_simp
    ring
  · have : (∑ a ∈ Finset.range na, ∑ c ∈ Finset.Ico 5 (nc + 5),
        smartBiasInit na (nc + 5) nc bias (a * (nc + 5) + c))
        = (na : ℝ) * ((nc : ℝ) * Real.log (1 / ((nc : ℝ) - 0.99))) := by
      rw [Finset.sum_congr rfl (fun a ha' => Finset.sum_congr rfl (hcls a ha'))]
      simp [Finset.sum_const, Nat.card_Ico, Finset.card_range, nsmul_eq_mul]
    rw [this]
    field_simp
    ring

/-- Witness for C5: three anchors, 80 classes, zero initial bias. -/
theorem smart_bias_init_means_witness :
    ((∑ a ∈ Finset.range 3,
        smartBiasInit 3 (80 + 5) 80 (fun _ => 0) (a * (80 + 5) + 4)) / ((3 : Nat) : ℝ)
      = -4.5) ∧
    ((∑ a ∈ Finset.range 3, ∑ c ∈ Finset.Ico 5 (80 + 5),
        smartBiasInit 3 (80 + 5) 80 (fun _ => 0) (a * (80 + 5) + c))
      / (((3 : Nat) : ℝ) * ((80 : Nat) : ℝ)) = Real.log (1 / (((80 : Nat) : ℝ) - 0.99))) :=
  smart_bias_init_means 3 80 (by decide) (by decide) (fun _ => 0) (fun _ => rfl)

/-! ## Grid-geometry cache (C7) -/

/-- C7: the detection head's cache check leaves the cached grid tensors
untouched when the incoming resolution equals the cached one — so a second
successive call at the same resolution changes nothing — and rebuilds the
geometry for the new resolution when it differs. -/
theorem grid_cache_behavior (anchors : List (ℝ × ℝ)) (st : GridState)
    (img ng : Nat × Nat) :
    (yolo_grid_update anchors (yolo_grid_update anchors st img ng) img ng
        = yolo_grid_update anchors st img ng) ∧
    ((st.nx, st.ny) = ng → yolo_grid_update anchors st img ng = st) ∧
    ((st.nx, st.ny) ≠ ng →
      yolo_grid_update anchors st img ng = create_grids anchors img ng ∧
      (yolo_grid_update anchors st img ng).nx = ng.1 ∧
      (yolo_grid_update anchors st img ng).ny = ng.2) := by
  obtain ⟨ngx, ngy⟩ := ng
  refine ⟨?_, ?_, ?_⟩
  · by_cases h : (st.nx, st.ny) = (ngx, ngy)
    · have h2 : yolo_grid_update anchors st img (ngx, ngy) = st := by
        rw [yolo_grid_update, if_neg (by simp [h])]
      rw [h2, h2]
    · have h1 : yolo_grid_update anchors st img (ngx, ngy)
          = create_grids anchors img (ngx, ngy) := by
        rw [yolo_grid_update, if_pos h]
      rw [h1, yolo_grid_update, if_neg (by simp [create_grids])]
  · intro h
    rw [yolo_grid_update, if_neg (by simp [h])]
  · intro h
    have h1 : yolo_grid_update anchors st img (ngx, ngy)
        = create_grids anchors img (ngx, ngy) := by
      rw [yolo_grid_update, if_pos h]
    refine ⟨h1, ?_, ?_⟩
    · rw [h1]
      rfl
    · rw [h1]
      rfl

/-- Witness for C7: with a cached 13-by-13 geometry, a 13-by-13 call keeps
the cache, and a 26-by-26 call rebuilds the geometry for 26-by-26. -/
theorem grid_cache_behavior_witness :
    (yolo_grid_update [((10 : ℝ), 13)]
        (create_grids [((10 : ℝ), 13)] (416, 416) (13, 13)) (416, 416) (13, 13)
      = create_grids [((10 : ℝ), 13)] (416, 416) (13, 13)) ∧
    (yolo_grid_update [((10 : ℝ), 13)]
        (create_grids [((10 : ℝ), 13)] (416, 416) (13, 13)) (416, 416) (26, 26)
      = create_grids [((10 : ℝ), 13)] (416, 416) (26, 26)) :=
  ⟨(grid_cache_behavior [((10 : ℝ), 13)]
      (create_grids [((10 : ℝ), 13)] (416, 416) (13, 13)) (416, 416) (13, 13)).2.1 rfl,
   ((grid_cache_behavior [((10 : ℝ), 13)]
      (create_grids [((10 : ℝ), 13)] (416, 416) (13, 13)) (416, 416) (26, 26)).2.2
      (by simp [create_grids])).1⟩

/-! ## Builder structure lemmas -/

/-- A successful builder iteration appends exactly one module and one
channel count. -/
theorem createStep_shape (i : Nat) (m : LayerSpec) (s s' : BuildState)
    (h : createStep i m s = .ok s') :
    (∃ bm f, s'.moduleList = s.moduleList ++ [bm] ∧
      s'.outputFilters = s.outputFilters ++ [f]) ∧
    s'.moduleList.length = s.moduleList.length + 1 ∧
    s'.outputFilters.length = s.outputFilters.length + 1 := by
  unfold createStep at h
  cases hb : stepBranch i m s with
  | error e => rw [hb] at h; simp [Bind.bind, Except.bind] at h
  | ok br =>
    rw [hb] at h
    simp only [Bind.bind, Except.bind] at h
    cases hf : br.filters <|> s.filters with
    | none => rw [hf] at h; simp at h
    | some f =>
      rw [hf] at h
      simp only [Except.ok.injEq] at h
      subst h
      exact ⟨⟨br.module, f, rfl, rfl⟩, by simp, by simp⟩

/-- A successful builder loop over `l` appends `l.length` modules and
`l.length` channel counts. -/
theorem buildLoop_shape (l : List LayerSpec) : ∀ i s s',
    buildLoop i l s = .ok s' →
    s'.moduleList.length = s.moduleList.length + l.length ∧
    ∃ t, s'.outputFilters = s.outputFilters ++ t ∧ t.length = l.length := by
  induction l with
  | nil =>
    intro i s s' h
    simp only [buildLoop, Except.ok.injEq] at h
    subst h
    exact ⟨by simp, [], by simp, rfl⟩
  | cons m rest ih =>
    intro i s s' h
    unfold buildLoop at h
    cases hc : createStep i m s with
    | error e => rw [hc] at h; simp [Bind.bind, Except.bind] at h
    | ok s1 =>
      rw [hc] at h
      simp only [Bind.bind, Except.bind] at h
      obtain ⟨⟨bm, f, hml, hof⟩, hlen1, hlen2⟩ := createStep_shape i m s s1 hc
      obtain ⟨hlen, t, hofs, htlen⟩ := ih (i + 1) s1 s' h
      constructor
      · rw [hlen, hlen1]; simp [List.length_cons]; omega
      · exact ⟨[f] ++ t, by rw [hofs, hof, List.append_assoc], by simp [htlen]⟩

theorem setRouted_length (l : List Bool) (i : Int) (l' : List Bool)
    (h : setRouted l i = .ok l') : l'.length = l.length := by
  simp only [setRouted] at h
  split at h
  · simp only [Except.ok.injEq] at h
    subst h
    exact List.length_set l _ _
  · simp at h

theorem markRouts_length (routs : List Int) : ∀ l l',
    markRouts routs l = .ok l' → l'.length = l.length := by
  induction routs with
  | nil =>
    intro l l' h
    simp only [markRouts, Except.ok.injEq] at h
    rw [h]
  | cons r rs ih =>
    intro l l' h
    unfold markRouts at h
    cases hs : setRouted l r with
    | error e => rw [hs] at h; simp [Bind.bind, Except.bind] at h
    | ok l1 =>
      rw [hs] at h
      simp only [Bind.bind, Except.bind] at h
      rw [ih l1 l' h, setRouted_length l r l1 hs]

/-! ## Builder postconditions (C3, C10) -/

/-- C3: whenever the builder returns, the module list has one entry per
layer specification (the hyperparameter record excluded) and the routed
mask has the module list's length, whatever the layer types. -/
theorem create_modules_lengths (hyper : LayerSpec) (rest : List LayerSpec)
    (img : Nat × Nat) (r : BuildResult)
    (h : create_modules (hyper :: rest) img = .ok r) :
    r.moduleList.length = rest.length ∧
    r.routsBinary.length = r.moduleList.length := by
  simp only [create_modules] at h
  cases hb : buildLoop 0 rest
      { outputFilters := [hyper.channels], moduleList := [], routs := [],
        yoloIndex := -1, filters := none } with
  | error e => rw [hb] at h; simp [Bind.bind, Except.bind] at h
  | ok s =>
    rw [hb] at h
    simp only [Bind.bind, Except.bind] at h
    by_cases hre : rest.isEmpty
    · rw [if_pos hre] at h; simp at h
    · rw [if_neg hre] at h
      cases hm : markRouts s.routs (List.replicate rest.length false) with
      | error e => rw [hm] at h; simp [Bind.bind, Except.bind] at h
      | ok rb =>
        rw [hm] at h
        simp only [Bind.bind, Except.bind, Except.ok.injEq] at h
        subst h
        have hml : s.moduleList.length = rest.length := by
          have := (buildLoop_shape rest 0 _ s hb).1
          simpa using this
        have hrb : rb.length = rest.length := by
          rw [markRouts_length s.routs _ rb hm, List.length_replicate]
        exact ⟨hml, by rw [hrb, hml]⟩

/-- Witness for C3 on a concrete three-layer description. -/
theorem create_modules_lengths_witness :
    create_modules exDefs (416, 416) = .ok exResult ∧
    exResult.moduleList.length = 3 ∧
    exResult.routsBinary.length = exResult.moduleList.length := by
  have hok : create_modules exDefs (416, 416) = .ok exResult := by rfl
  have h := create_modules_lengths exHyper [exConv, exRoute, exYolo] (416, 416)
    exResult hok
  exact ⟨hok, h.1, h.2⟩

/-- C10: the builder consumes exactly the leading hyperparameter record:
afterwards the specification sequence holds the per-layer records only,
unchanged, aligned 1:1 with the module list — the zip in
`Darknet.forward` relies on this. -/
theorem create_modules_pops_hyper (hyper : LayerSpec) (rest : List LayerSpec)
    (img : Nat × Nat) (r : BuildResult)
    (h : create_modules (hyper :: rest) img = .ok r) :
    r.specs = rest ∧ r.moduleList.length = r.specs.length := by
  simp only [create_modules] at h
  cases hb : buildLoop 0 rest
      { outputFilters := [hyper.channels], moduleList := [], routs := [],
        yoloIndex := -1, filters := none } with
  | error e => rw [hb] at h; simp [Bind.bind, Except.bind] at h
  | ok s =>
    rw [hb] at h
    simp only [Bind.bind, Except.bind] at h
    by_cases hre : rest.isEmpty
    · rw [if_pos hre] at h; simp at h
    · rw [if_neg hre] at h
      cases hm : markRouts s.routs (List.replicate rest.length false) with
      | error e => rw [hm] at h; simp [Bind.bind, Except.bind] at h
      | ok rb =>
        rw [hm] at h
        simp only [Bind.bind, Except.bind, Except.ok.injEq] at h
        subst h
        have hml : s.moduleList.length = rest.length := by
          have := (buildLoop_shape rest 0 _ s hb).1
          simpa using this
        exact ⟨rfl, by simpa using hml⟩

/-- Witness for C10 on the same concrete description. -/
theorem create_modules_pops_hyper_witness :
    exResult.specs = [exConv, exRoute, exYolo] ∧
    exResult.moduleList.length = exResult.specs.length :=
  create_modules_pops_hyper exHyper [exConv, exRoute, exYolo] (416, 416)
    exResult (by rfl)

/-! ## Unrecognized layer types (C8) -/

/-- Counterexample to C8 as stated: with the unrecognized record in first
position, no earlier branch has assigned the loop-local `filters`, so the
builder crashes (`UnboundLocalError` at `output_filters.append(filters)`)
instead of completing with a no-op entry. -/
theorem unknown_first_layer_aborts :
    create_modules exC8defs (416, 416)
      = .error "UnboundLocalError: local variable filters referenced before assignment" ∧
    ∀ r : BuildResult, create_modules exC8defs (416, 416) ≠ .ok r := by
  have h : create_modules exC8defs (416, 416)
      = .error "UnboundLocalError: local variable filters referenced before assignment" := by
    rfl
  refine ⟨h, ?_⟩
  intro r hr
  rw [h] at hr
  simp at hr

/-- C8 as amended: an unrecognized layer type never aborts the iteration
provided some earlier layer already assigned the channel-count variable:
the builder registers a structural no-op module, appends the carried
channel count, and leaves the routing data untouched, keeping all indices
aligned. -/
theorem unknown_layer_no_abort (i : Nat) (m : LayerSpec) (s : BuildState) (f : Nat)
    (hm : ¬ m.type ∈ recognizedTypes) (hf : s.filters = some f) :
    createStep i m s = .ok
      { outputFilters := s.outputFilters ++ [f]
        moduleList := s.moduleList ++ [.seqEmpty]
        routs := s.routs, yoloIndex := s.yoloIndex, filters := some f } := by
  simp only [recognizedTypes, List.mem_cons, List.not_mem_nil, or_false,
    not_or] at hm
  obtain ⟨h1, h2, h3, h4, h5, h6, h7, h8, h9, h10⟩ := hm
  unfold createStep stepBranch
  rw [if_neg h1, if_neg h2, if_neg h3, if_neg h4, if_neg h5, if_neg h6,
    if_neg h7, if_neg h8, if_neg h9, if_neg h10]
  simp [Bind.bind, Except.bind, hf, Option.orElse]

/-- Witness for C8 (amended): the unrecognized record in second position,
after a convolution has set the channel count. -/
theorem unknown_layer_no_abort_witness :
    createStep 1 exMystery
      { outputFilters := [3, 8], moduleList := [exConvModule], routs := [],
        yoloIndex := -1, filters := some 8 }
      = .ok { outputFilters := [3, 8, 8]
              moduleList := [exConvModule, .seqEmpty]
              routs := [], yoloIndex := -1, filters := some 8 } :=
  unknown_layer_no_abort 1 exMystery
    { outputFilters := [3, 8], moduleList := [exConvModule], routs := [],
      yoloIndex := -1, filters := some 8 } 8 (by decide) rfl

/-! ## Route channel counts (C4) -/

/-- The builder loop splits along list concatenation. -/
theorem buildLoop_append (l1 l2 : List LayerSpec) : ∀ i s,
    buildLoop i (l1 ++ l2) s
      = (do buildLoop (i + l1.length) l2 (← buildLoop i l1 s)) := by
  induction l1 with
  | nil =>
    intro i s
    simp [buildLoop, Bind.bind, Except.bind]
  | cons m rest ih =>
    intro i s
    have hL : (m :: rest) ++ l2 = m :: (rest ++ l2) := rfl
    rw [hL]
    simp only [buildLoop]
    cases hc : createStep i m s with
    | error e => simp [hc, Bind.bind, Except.bind]
    | ok s1 =>
      simp only [hc, Bind.bind, Except.bind]
      rw [ih (i + 1) s1]
      have hlen : i + (m :: rest).length = i + 1 + rest.length := by
        simp only [List.length_cons]
        omega
      rw [hlen]
      cases br : buildLoop (i + 1) rest s1 with
      | error e => simp [br, Bind.bind, Except.bind]
      | ok v => simp [br, Bind.bind, Except.bind]

/-- A successful route iteration appends exactly the sum of the looked-up
channel counts. -/
theorem createStep_route (i : Nat) (m : LayerSpec) (s s' : BuildState)
    (ht : m.type = "route") (h : createStep i m s = .ok s') :
    ∃ vals, (m.layers.mapM fun l =>
        pyGetNat s.outputFilters (if l > 0 then l + 1 else l)) = .ok vals ∧
      s'.outputFilters = s.outputFilters ++ [vals.sum] := by
  have c1 : m.type ≠ "convolutional" := by rw [ht]; decide
  have c2 : m.type ≠ "maxpool" := by rw [ht]; decide
  have c3 : m.type ≠ "avgpool" := by rw [ht]; decide
  have c4 : m.type ≠ "semodule" := by rw [ht]; decide
  have c5 : m.type ≠ "shuffle" := by rw [ht]; decide
  have c6 : m.type ≠ "dense" := by rw [ht]; decide
  have c7 : m.type ≠ "upsample" := by rw [ht]; decide
  unfold createStep stepBranch at h
  rw [if_neg c1, if_neg c2, if_neg c3, if_neg c4, if_neg c5, if_neg c6,
    if_neg c7, if_pos ht] at h
  cases hv : m.layers.mapM fun l =>
      pyGetNat s.outputFilters (if l > 0 then l + 1 else l) with
  | error e => rw [hv] at h; simp [Bind.bind, Except.bind] at h
  | ok vals =>
    rw [hv] at h
    simp only [Bind.bind, Except.bind, Option.some_orElse, Except.ok.injEq] at h
    subst h
    exact ⟨vals, rfl, rfl⟩

/-- Unpacking a successful Python list read. -/
theorem pyGetNat_ok_eq (fl : List Nat) (idx : Int) (v : Nat)
    (h : pyGetNat fl idx = .ok v) :
    ∃ j : Nat, (j : Int) = pyIndex fl.length idx ∧ j < fl.length ∧
      fl.get? j = some v := by
  simp only [pyGetNat] at h
  split at h
  case isTrue hc =>
    simp only [Except.ok.injEq] at h
    refine ⟨(pyIndex fl.length idx).toNat, ?_, hc.2, ?_⟩
    · exact Int.toNat_of_nonneg hc.1
    · rw [← h]
      exact List.get?_eq_get hc.2
  case isFalse => simp at h

/-- The values a successful route lookup returns are the final channel
counts at the normalized reference positions, provided every reference is
nonzero and the negative ones stay in range. -/
theorem route_vals_eq (fl t : List Nat) (i : Nat) (hlen : fl.length = i + 1) :
    ∀ (ls : List Int) (vals : List Nat), (ls.mapM fun l =>
        pyGetNat fl (if l > 0 then l + 1 else l)) = .ok vals →
      (∀ l ∈ ls, l ≠ 0 ∧ (l < 0 → 0 ≤ (i : Int) + l)) →
      vals = ls.map fun l => (fl ++ t).getD (routeRef i l + 1) 0 := by
  intro ls
  induction ls with
  | nil =>
    intro vals h _
    simp only [List.mapM_nil, pure, Except.pure, Except.ok.injEq] at h
    rw [← h, List.map_nil]
  | cons l ls ih =>
    intro vals h href
    rw [List.mapM_cons] at h
    cases hv : pyGetNat fl (if l > 0 then l + 1 else l) with
    | error e => rw [hv] at h; simp [Bind.bind, Except.bind] at h
    | ok v =>
      rw [hv] at h
      simp only [Bind.bind, Except.bind] at h
      cases hvs : ls.mapM (fun l => pyGetNat fl (if l > 0 then l + 1 else l)) with
      | error e => rw [hvs] at h; simp [Except.bind] at h
      | ok vs =>
        rw [hvs] at h
        simp only [Except.bind, pure, Except.pure, Except.ok.injEq] at h
        obtain ⟨hl0, hlneg⟩ := href l (List.mem_cons_self l ls)
        obtain ⟨j, hj, hjlt, hjget⟩ := pyGetNat_ok_eq fl _ v hv
        have hidx : j = routeRef i l + 1 := by
          rcases lt_trichotomy l 0 with hlt | h0 | hgt
          · have harg : (if l > 0 then l + 1 else l) = l := by
              rw [if_neg (by omega)]
            rw [harg] at hj
            have hpy : pyIndex fl.length l = l + (i + 1) := by
              simp only [pyIndex, if_pos hlt, hlen]
              omega
            rw [hpy] at hj
            have hge := hlneg hlt
            simp only [routeRef, if_pos hlt]
            omega
          · exact absurd h0 hl0
          · have harg : (if l > 0 then l + 1 else l) = l + 1 := by
              rw [if_pos (by omega)]
            rw [harg] at hj
            have hpy : pyIndex fl.length (l + 1) = l + 1 := by
              simp only [pyIndex, if_neg (by omega : ¬ l + 1 < 0)]
            rw [hpy] at hj
            simp only [routeRef, if_neg (by omega : ¬ l < 0)]
            omega
        have hget2 : (fl ++ t).getD (routeRef i l + 1) 0 = v := by
          rw [← hidx, List.getD_eq_get?, List.get?_append hjlt, hjget]
          rfl
        rw [← h, List.map_cons, hget2]
        rw [ih vs hvs fun l' hl' => href l' (List.mem_cons_of_mem l hl')]

/-- C4 as amended: for every route whose references are all nonzero (with
negative references resolving to a nonnegative layer index), the declared
output channel count is exactly the sum of the referenced layers' output
channel counts; for the single back-reference -1 this is the immediately
preceding layer's count.  (An absolute reference 0 is the one exception:
the lookup hits the input-channel sentinel instead of layer 0's output
count.) -/
theorem route_filters_sum (hyper : LayerSpec) (rest : List LayerSpec)
    (img : Nat × Nat) (r : BuildResult) (i : Nat) (m : LayerSpec)
    (h : create_modules (hyper :: rest) img = .ok r)
    (hm : rest.get? i = some m) (ht : m.type = "route")
    (href : ∀ l ∈ m.layers, l ≠ 0 ∧ (l < 0 → 0 ≤ (i : Int) + l)) :
    r.outputFilters.get? (i + 1)
      = some ((m.layers.map fun l =>
          r.outputFilters.getD (routeRef i l + 1) 0).sum) ∧
    (m.layers = [-1] → r.outputFilters.get? (i + 1) = r.outputFilters.get? i) := by
  -- peel the builder wrapper down to the loop
  simp only [create_modules] at h
  cases hb : buildLoop 0 rest
      { outputFilters := [hyper.channels], moduleList := [], routs := [],
        yoloIndex := -1, filters := none } with
  | error e => rw [hb] at h; simp [Bind.bind, Except.bind] at h
  | ok s =>
    rw [hb] at h
    simp only [Bind.bind, Except.bind] at h
    by_cases hre : rest.isEmpty
    · rw [if_pos hre] at h; simp at h
    · rw [if_neg hre] at h
      cases hmr : markRouts s.routs (List.replicate rest.length false) with
      | error e => rw [hmr] at h; simp [Bind.bind, Except.bind] at h
      | ok rb =>
        rw [hmr] at h
        simp only [Bind.bind, Except.bind, Except.ok.injEq] at h
        have hof : r.outputFilters = s.outputFilters := by rw [← h]
        -- split the loop at the route position
        obtain ⟨hi, hgm⟩ := List.get?_eq_some.mp hm
        have hsplit : rest = rest.take i ++ m :: rest.drop (i + 1) := by
          conv_lhs => rw [← List.take_append_drop i rest]
          congr 1
          rw [List.drop_eq_get_cons hi, hgm]
        rw [hsplit, buildLoop_append] at hb
        cases h1 : buildLoop 0 (rest.take i)
            { outputFilters := [hyper.channels], moduleList := [], routs := [],
              yoloIndex := -1, filters := none } with
        | error e => rw [h1] at hb; simp [Bind.bind, Except.bind] at hb
        | ok s1 =>
          rw [h1] at hb
          simp only [Bind.bind, Except.bind] at hb
          have hilen : (rest.take i).length = i := by
            rw [List.length_take]; omega
          rw [hilen] at hb
          simp only [buildLoop, Nat.zero_add] at hb
          cases h2 : createStep i m s1 with
          | error e => rw [h2] at hb; simp [Bind.bind, Except.bind] at hb
          | ok s2 =>
            rw [h2] at hb
            simp only [Bind.bind, Except.bind] at hb
            obtain ⟨vals, hmapm, hof2⟩ := createStep_route i m s1 s2 ht h2
            obtain ⟨_, t1, hof1, ht1len⟩ := buildLoop_shape (rest.take i) 0 _ s1 h1
            have hlen1 : s1.outputFilters.length = i + 1 := by
              rw [hof1]
              simp only [List.length_append, ht1len, hilen, List.length_cons,
                List.length_nil]
              omega
            obtain ⟨_, t2, hofS, _⟩ := buildLoop_shape (rest.drop (i + 1)) (i + 1) s2 s hb
            have hdecomp : s.outputFilters
                = s1.outputFilters ++ ([vals.sum] ++ t2) := by
              rw [hofS, hof2, List.append_assoc]
            have hvals : vals = m.layers.map fun l =>
                (s1.outputFilters ++ ([vals.sum] ++ t2)).getD (routeRef i l + 1) 0 :=
              route_vals_eq s1.outputFilters ([vals.sum] ++ t2) i hlen1
                m.layers vals hmapm href
            have hmain : r.outputFilters.get? (i + 1)
                = some ((m.layers.map fun l =>
                    r.outputFilters.getD (routeRef i l + 1) 0).sum) := by
              rw [hof, hdecomp]
              rw [List.get?_append_right (by omega)]
              rw [hlen1]
              simp only [Nat.sub_self]
              rw [← hvals]
              rfl
            refine ⟨hmain, ?_⟩
            intro hl1
            rw [hmain, hl1]
            have hneg := (href (-1) (by rw [hl1]; exact List.mem_singleton_self _)).2
              (by decide)
            have hi1 : 1 ≤ i := by omega
            have hrr : routeRef i (-1) + 1 = i := by
              simp only [routeRef, if_pos (by decide : (-1 : Int) < 0)]
              omega
            rw [List.map_singleton, hrr]
            have hilt : i < r.outputFilters.length := by
              rw [hof, hdecomp]
              simp only [List.length_append, hlen1]
              omega
            have hw := List.get?_eq_get hilt
            rw [List.getD_eq_get?, hw]
            rfl

/-- Witness for C4 (amended) at the concrete route with back-reference -1. -/
theorem route_filters_sum_witness :
    exResult.outputFilters.get? 2
      = some ((exRoute.layers.map fun l =>
          exResult.outputFilters.getD (routeRef 1 l + 1) 0).sum) ∧
    exResult.outputFilters.get? 2 = exResult.outputFilters.get? 1 := by
  have h := route_filters_sum exHyper [exConv, exRoute, exYolo] (416, 416)
    exResult 1 exRoute (by rfl) (by rfl) rfl
    (by
      intro l hl
      simp only [exRoute] at hl
      simp at hl
      subst hl
      exact ⟨by decide, fun _ => by decide⟩)
  exact ⟨h.1, h.2 rfl⟩

/-- Counterexample to C4 as stated: in `exC4defs` the route refers to
layer 0 absolutely; the builder declares the input-channel sentinel (3
channels) instead of layer 0's output count (8 channels). -/
theorem route_zero_ref_mismatch : ¬ RouteFiltersClaimAt exC4defs (416, 416) := by
  intro hcl
  have hok : create_modules exC4defs (416, 416)
      = .ok { moduleList := [exConvModule, .seqEmpty]
              routsBinary := [true, false]
              specs := [exConv, exRouteZero]
              outputFilters := [3, 8, 3] } := by rfl
  have := hcl exHyper [exConv, exRouteZero] _ 1 exRouteZero rfl hok (by rfl) rfl
  simp only [exRouteZero, routeRef] at this
  simp at this

/-! ## Output-history buffer (C6) -/

theorem pySetHist_length {V : Type} (l : List (Hist V)) (i : Int) (v : Hist V)
    (l' : List (Hist V)) (h : pySetHist l i v = .ok l') : l'.length = l.length := by
  simp only [pySetHist] at h
  split at h
  · simp only [Except.ok.injEq] at h
    rw [← h]
    exact List.length_set l _ _
  · simp at h

/-- The reorg fallback rewrites one history entry in place: the history's
length never changes. -/
theorem routeMulti_out_length {V : Type} (ops : ForwardOps V) (ls : List Int)
    (out : List (Hist V)) (p : V × List (Hist V))
    (h : routeMulti ops ls out = .ok p) : p.2.length = out.length := by
  simp only [routeMulti] at h
  split at h
  · simp only [Except.ok.injEq] at h
    rw [← h]
  · cases hl1 : ls.get? 1 with
    | none => rw [hl1] at h; simp [Bind.bind, Except.bind] at h
    | some l1 =>
      rw [hl1] at h
      simp only [Bind.bind, Except.bind] at h
      cases hv1 : histGetE out l1 with
      | error e => rw [hv1] at h; simp [Except.bind] at h
      | ok v1 =>
        rw [hv1] at h
        simp only [Except.bind] at h
        cases hset : pySetHist out l1 (Hist.val (ops.interpolateHalf v1)) with
        | error e => rw [hset] at h; simp [Except.bind] at h
        | ok out2 =>
          rw [hset] at h
          simp only [Except.bind] at h
          cases hvs : ls.mapM fun l => histGetE out2 l with
          | error e => rw [hvs] at h; simp [Except.bind] at h
          | ok vs =>
            rw [hvs] at h
            simp only [Except.bind] at h
            split at h
            · simp only [Except.ok.injEq] at h
              rw [← h]
              exact pySetHist_length out l1 _ out2 hset
            · simp at h

/-- The dispatch never changes the history length (in particular the
appended entry of `darknetStep` lands at the old length). -/
theorem stepCore_out_length {V : Type} (ops : ForwardOps V) (md : LayerSpec)
    (module : BuiltModule) (st : FwdState V) (r : V × List (Hist V) × List V)
    (h : stepCore ops md module st = .ok r) : r.2.1.length = st.out.length := by
  unfold stepCore at h
  split_ifs at h with h1 h2 h3 h4
  · simp only [Except.ok.injEq] at h
    rw [← h]
  · cases module with
    | seqEmpty => simp at h
    | conv a b c d e f => simp at h
    | maxpool a b c => simp at h
    | avgpool a b => simp at h
    | seModule a => simp at h
    | shuffle a => simp at h
    | dense a b c => simp at h
    | upsample a => simp at h
    | yolo a b c d => simp at h
    | fusion ls w =>
      simp only [Except.ok.injEq] at h
      rw [← h]
  · cases hl : md.layers with
    | nil =>
      rw [hl] at h
      have h' : Except.map (fun p => (p.1, p.2, st.yoloOut))
          (routeMulti ops [] st.out) = Except.ok r := h
      cases hrm : routeMulti ops [] st.out with
      | error e => rw [hrm] at h'; simp [Except.map] at h'
      | ok p =>
        rw [hrm] at h'
        simp only [Except.map, Except.ok.injEq] at h'
        rw [← h']
        exact routeMulti_out_length ops [] st.out p hrm
    | cons l ls' =>
      cases hls' : ls' with
      | nil =>
        rw [hl, hls'] at h
        have h' : (do
            let v ← histGetE st.out l
            Except.ok (v, st.out, st.yoloOut)) = Except.ok r := h
        cases hg : histGetE st.out l with
        | error e => rw [hg] at h'; simp [Bind.bind, Except.bind] at h'
        | ok v =>
          rw [hg] at h'
          simp only [Bind.bind, Except.bind, Except.ok.injEq] at h'
          rw [← h']
      | cons l2 ls2 =>
        rw [hl, hls'] at h
        have h' : Except.map (fun p => (p.1, p.2, st.yoloOut))
            (routeMulti ops (l :: l2 :: ls2) st.out) = Except.ok r := h
        cases hrm : routeMulti ops (l :: l2 :: ls2) st.out with
        | error e => rw [hrm] at h'; simp [Except.map] at h'
        | ok p =>
          rw [hrm] at h'
          simp only [Except.map, Except.ok.injEq] at h'
          rw [← h']
          exact routeMulti_out_length ops _ st.out p hrm
  · simp only [Except.ok.injEq] at h
    rw [← h]
  · simp only [Except.ok.injEq] at h
    rw [← h]

/-- One executor iteration appends exactly one history entry. -/
theorem darknetStep_out {V : Type} (ops : ForwardOps V) (routs : List Bool)
    (i : Nat) (md : LayerSpec) (module : BuiltModule) (st st' : FwdState V)
    (h : darknetStep ops routs i md module st = .ok st') :
    st'.out.length = st.out.length + 1 ∧
    st'.out.get? st.out.length
      = some (if routs.getD i false then Hist.val st'.x else Hist.empty) := by
  unfold darknetStep at h
  cases hc : stepCore ops md module st with
  | error e => rw [hc] at h; simp [Bind.bind, Except.bind] at h
  | ok r =>
    rw [hc] at h
    simp only [Bind.bind, Except.bind, Except.ok.injEq] at h
    have hlen := stepCore_out_length ops md module st r hc
    subst h
    constructor
    · simp [hlen]
    · have : r.2.1.length = st.out.length := hlen
      rw [← this]
      exact List.get?_concat_length r.2.1 _

/-- A successful executor loop appends one history entry per layer. -/
theorem darknetLoop_out_length {V : Type} (ops : ForwardOps V) (routs : List Bool)
    (pairs : List (LayerSpec × BuiltModule)) : ∀ i st st',
    darknetLoop ops routs i pairs st = .ok st' →
    st'.out.length = st.out.length + pairs.length := by
  induction pairs with
  | nil =>
    intro i st st' h
    simp only [darknetLoop, Except.ok.injEq] at h
    rw [← h]
    simp
  | cons p rest ih =>
    intro i st st' h
    unfold darknetLoop at h
    cases hc : darknetStep ops routs i p.1 p.2 st with
    | error e => rw [hc] at h; simp [Bind.bind, Except.bind] at h
    | ok st1 =>
      rw [hc] at h
      simp only [Bind.bind, Except.bind] at h
      have h1 := (darknetStep_out ops routs i p.1 p.2 st st1 hc).1
      have h2 := ih (i + 1) st1 st' h
      rw [h2, h1]
      simp [List.length_cons]
      omega

/-- C6: during a forward call, executing layer `i` grows the history
buffer from `i` to `i + 1` entries, the new entry at index `i` being the
layer's output tensor when the routed mask holds there and the empty
placeholder otherwise; the buffer starts empty inside `darknet_forward`
(fresh per call) and afterwards holds exactly one entry per executed
layer. -/
theorem output_history_invariant (V : Type) (ops : ForwardOps V)
    (routs : List Bool) :
    (∀ (i : Nat) (md : LayerSpec) (module : BuiltModule) (st st' : FwdState V),
      st.out.length = i → darknetStep ops routs i md module st = .ok st' →
      st'.out.length = i + 1 ∧
      st'.out.get? i
        = some (if routs.getD i false then Hist.val st'.x else Hist.empty)) ∧
    (∀ (pairs : List (LayerSpec × BuiltModule)) (x0 : V) (st' : FwdState V),
      darknet_forward ops routs pairs x0 = .ok st' →
      st'.out.length = pairs.length) := by
  constructor
  · intro i md module st st' hlen h
    obtain ⟨h1, h2⟩ := darknetStep_out ops routs i md module st st' h
    rw [hlen] at h1 h2
    exact ⟨h1, h2⟩
  · intro pairs x0 st' h
    have := darknetLoop_out_length ops routs pairs 0
      { x := x0, out := [], yoloOut := [] } st' h
    simpa using this

/-- Witness for C6: a convolution step on an empty buffer, and a full
two-layer forward pass (routed convolution, then route). -/
theorem output_history_invariant_witness :
    ((⟨6, [Hist.val 6], []⟩ : FwdState Nat).out.length = 0 + 1 ∧
      (⟨6, [Hist.val 6], []⟩ : FwdState Nat).out.get? 0
        = some (if ([true, false] : List Bool).getD 0 false
            then Hist.val (⟨6, [Hist.val 6], []⟩ : FwdState Nat).x
            else Hist.empty)) ∧
    ((⟨6, [Hist.val 6, Hist.empty], []⟩ : FwdState Nat).out.length
      = [(exConv, exConvModule), (exRoute, BuiltModule.seqEmpty)].length) := by
  constructor
  · exact (output_history_invariant Nat natOps [true, false]).1 0 exConv
      exConvModule ⟨5, [], []⟩ ⟨6, [Hist.val 6], []⟩ rfl (by rfl)
  · exact (output_history_invariant Nat natOps [true, false]).2
      [(exConv, exConvModule), (exRoute, BuiltModule.seqEmpty)] 5
      ⟨6, [Hist.val 6, Hist.empty], []⟩ (by rfl)

/-! ## Training-loop abort (C9) -/

/-- Running the epoch loop into the first non-finite batch: with
evaluation on (`notest` false), the loop stops inside the bad epoch and
hands back the previous epoch's evaluation (the state's current `results`
when the bad epoch is the first processed), having run exactly the good
batches through the optimizer. -/
theorem trainGo_abort_run {R : Type} (env : TrainEnv R) (b : Nat)
    (hnotest : env.notest = false) :
    ∀ k e n st, k < n →
      (∀ j, j < k → firstBadBatch env (e + j) = none) →
      firstBadBatch env (e + k) = some b →
      (trainGo env n e st).results
          = (if k = 0 then st.results else env.evalResults (e + k - 1)) ∧
      (trainGo env n e st).steps = st.steps + k * env.batches + b := by
  intro k
  induction k with
  | zero =>
    intro e n st hn hgood hbad
    rw [Nat.add_zero] at hbad
    cases n with
    | zero => omega
    | succ n' =>
      simp only [trainGo, hbad]
      constructor
      · simp
      · simp
  | succ k ih =>
    intro e n st hn hgood hbad
    cases n with
    | zero => omega
    | succ n' =>
      have h0 : firstBadBatch env e = none := by
        have := hgood 0 (by omega)
        simpa using this
      simp only [trainGo, h0]
      rw [if_pos (Or.inl hnotest)]
      have hgood' : ∀ j, j < k → firstBadBatch env (e + 1 + j) = none := by
        intro j hj
        have hg := hgood (j + 1) (by omega)
        have he : e + (j + 1) = e + 1 + j := by omega
        rwa [he] at hg
      have hbad' : firstBadBatch env (e + 1 + k) = some b := by
        have he : e + (k + 1) = e + 1 + k := by omega
        rwa [he] at hbad
      have hres := ih (e + 1) n'
        { results := env.evalResults e
          bestFitness := if st.bestFitness < env.fitnessOf (env.evalResults e)
              then env.fitnessOf (env.evalResults e) else st.bestFitness
          steps := st.steps + env.batches } (by omega) hgood' hbad'
      constructor
      · rw [hres.1]
        by_cases hk : k = 0
        · subst hk
          simp
        · rw [if_neg hk, if_neg (by omega : ¬ k + 1 = 0)]
          congr 1
          omega
      · rw [hres.2]
        simp only [Nat.succ_mul]
        omega

/-- C9 as amended: a non-finite total loss in epoch `e` aborts the run at
once — the bad batch contributes no backward pass, nothing after it runs —
and the function returns the most recent evaluation results (the previous
epoch's; the initial zero tuple when no epoch completed), which need not
be the best obtained so far. -/
theorem train_nonfinite_abort {R : Type} (env : TrainEnv R) (best0 : ℚ)
    (e b : Nat) (hst : env.startEpoch = 0) (hnotest : env.notest = false)
    (he : e < env.epochs)
    (hgood : ∀ j, j < e → firstBadBatch env j = none)
    (hbad : firstBadBatch env e = some b) :
    (train env best0).results
        = (if e = 0 then env.initResults else env.evalResults (e - 1)) ∧
    (train env best0).steps = e * env.batches + b := by
  unfold train
  rw [hst]
  have h := trainGo_abort_run env b hnotest e 0 (env.epochs - 0)
    { results := env.initResults, bestFitness := best0, steps := 0 }
    (by omega) (by intro j hj; simpa using hgood j hj)
    (by simpa using hbad)
  constructor
  · rw [h.1]
    simp
  · rw [h.2]
    simp

/-- Witness for C9 (amended): the concrete run aborts in epoch 2 and
returns the epoch-1 evaluation after exactly the two good batches. -/
theorem train_nonfinite_abort_witness :
    (train envC9 0).results = envC9.evalResults (2 - 1) ∧
    (train envC9 0).steps = 2 * envC9.batches + 0 := by
  have h := train_nonfinite_abort envC9 0 2 0 rfl rfl (by decide)
    (by intro j hj; interval_cases j <;> rfl) rfl
  refine ⟨?_, h.2⟩
  rw [h.1]
  rw [if_neg (by decide : ¬ (2 : Nat) = 0)]

/-- Counterexample to C9 as stated: in `envC9` the epoch-0 evaluation has
fitness 10 and the epoch-1 evaluation fitness 1; the non-finite loss in
epoch 2 makes `train` return the epoch-1 results (fitness 1), not the
best evaluation results obtained so far (epoch 0's, fitness 10); exactly
the two good batches ran. -/
theorem train_nonfinite_counterexample :
    (train envC9 0).results = 1 ∧
    envC9.evalResults 0 = 10 ∧
    envC9.fitnessOf ((train envC9 0).results)
      < envC9.fitnessOf (envC9.evalResults 0) ∧
    (train envC9 0).steps = 2 := by
  refine ⟨by rfl, by rfl, ?_, by rfl⟩
  have h1 : (train envC9 0).results = (1 : ℚ) := rfl
  have h2 : envC9.evalResults 0 = (10 : ℚ) := rfl
  rw [h1, h2]
  show (1 : ℚ) < 10
  norm_num

end YoloSpec
